import Mathlib

/-!
Verification of the finch.js driver (Birdbrain Finch Robot 1.0 over WebHID).

Shallow embedding of `src/finch.js`: the frame codec (`send`'s array
construction), the sensor decoders (`get_obstacles`, `get_acceleration`,
`get_temperature`), the buzzer command (`buzz`) and the session lifecycle
(`run`).  Bytes are natural numbers; a `Uint8Array(8)` is a `List ℕ` of
length 8 whose writes coerce modulo 256 and silently ignore out-of-range
indices, exactly as JavaScript typed arrays do.  JavaScript numbers in the
sensor conversions are modelled as exact rationals, with `JSNum.nan`
standing for the NaN produced by arithmetic on `undefined` reads.
Externally visible I/O (HID report sends, report receives, open/close,
`wait`) is recorded as a trace of `Event`s.
-/

namespace Finch

/-- One externally observable action of the driver. -/
inductive Event where
  | requestDevice : Event
  | openDev : Event
  | sendReport : List ℕ → Event
  | recvFrame : List ℕ → Event
  | waitSeconds : ℕ → Event
  | closeDev : Event
deriving DecidableEq

/-- A JavaScript typed-array element write `arr[i] = v`: out-of-range
indices are silently ignored (`Uint8Array` semantics). The value is
assumed already coerced. -/
def writeAt (arr : List ℕ) (i v : ℕ) : List ℕ :=
  if i < arr.length then arr.set i v else arr

/-- JavaScript `ToUint8` of the value read from `msg[i]`: a present number
is taken modulo 256, a missing index reads `undefined`, which `Uint8Array`
stores as 0. -/
def jsToUint8 : Option ℕ → ℕ
  | some n => n % 256
  | none => 0

/-- The array built by `send(cmd, msg)` in src/finch.js:

    const arr = new Uint8Array(8);
    arr[0] = cmd.charCodeAt(0);
    let i;
    for (i = 0; i < msg.length + 1; i++) arr[i+1] = msg[i];
    for (; i < arr.length; i++) arr[i] = 0;

`cmd` is the `charCodeAt(0)` result. The first loop runs one index past
the end of `msg` (storing `undefined`, i.e. 0) and its writes beyond
index 7 are dropped by the typed array; the second loop zeroes the
remaining indices `msg.length + 1 .. 7`. -/
def sendFrame (cmd : ℕ) (msg : List ℕ) : List ℕ :=
  (List.range' (msg.length + 1) (8 - (msg.length + 1))).foldl
    (fun a i => writeAt a i 0)
    ((List.range (msg.length + 1)).foldl
      (fun a i => writeAt a (i + 1) (jsToUint8 msg[i]?))
      (writeAt (List.replicate 8 0) 0 (cmd % 256)))

/-- The trace of `send(cmd, msg)`: one `sendReport(0, arr)` call on the
device handle (the `console.log` is not I/O to the device). Extra
arguments passed at a call site beyond `(cmd, msg)` — as in `buzz` —
are ignored by JavaScript and never reach the frame. -/
def send_op (cmd : ℕ) (msg : List ℕ) : List Event :=
  [Event.sendReport (sendFrame cmd msg)]

theorem writeAt_length (arr : List ℕ) (i v : ℕ) :
    (writeAt arr i v).length = arr.length := by
  unfold writeAt; split <;> simp

theorem writeAt_getElem_ne (arr : List ℕ) (i v j : ℕ) (h : j ≠ i) :
    (writeAt arr i v)[j]? = arr[j]? := by
  unfold writeAt; split
  · exact List.getElem?_set_ne (Ne.symm h)
  · rfl

theorem writeAt_getElem_eq (arr : List ℕ) (i v : ℕ) (h : i < arr.length) :
    (writeAt arr i v)[i]? = some v := by
  unfold writeAt; rw [if_pos h]; exact List.getElem?_set_eq_of_lt v h

theorem foldl_writeAt_length (g h : ℕ → ℕ) (L : List ℕ) (a : List ℕ) :
    (L.foldl (fun acc i => writeAt acc (g i) (h i)) a).length = a.length := by
  induction L generalizing a with
  | nil => rfl
  | cons x xs ih => rw [List.foldl_cons, ih, writeAt_length]

theorem foldl_msgwrite_getElem (f : ℕ → ℕ) (n : ℕ) (a : List ℕ) (ha : a.length = 8)
    (j : ℕ) (hj : j < 8) :
    ((List.range n).foldl (fun acc i => writeAt acc (i + 1) (f i)) a)[j]? =
      if 1 ≤ j ∧ j ≤ n then some (f (j - 1)) else a[j]? := by
  induction n with
  | zero =>
    rw [show List.range 0 = [] from rfl, List.foldl_nil, if_neg (by omega)]
  | succ n ih =>
    rw [List.range_succ, List.foldl_append, List.foldl_cons, List.foldl_nil]
    by_cases hje : j = n + 1
    · subst hje
      have hlen : ((List.range n).foldl
          (fun acc i => writeAt acc (i + 1) (f i)) a).length = 8 := by
        rw [foldl_writeAt_length]; exact ha
      rw [writeAt_getElem_eq _ _ _ (by rw [hlen]; exact hj)]
      rw [if_pos ⟨Nat.succ_le_succ (Nat.zero_le n), le_refl _⟩]
      simp
    · rw [writeAt_getElem_ne _ _ _ _ hje, ih]
      have hc : (1 ≤ j ∧ j ≤ n) ↔ (1 ≤ j ∧ j ≤ n + 1) := by omega
      simp only [hc]

theorem foldl_zerowrite_getElem (n : ℕ) : ∀ (s : ℕ) (a : List ℕ), a.length = 8 →
    ∀ j, j < 8 →
    ((List.range' s n).foldl (fun acc i => writeAt acc i 0) a)[j]? =
      if s ≤ j ∧ j < s + n then some 0 else a[j]? := by
  induction n with
  | zero =>
    intro s a _ j _
    rw [show List.range' s 0 = [] from rfl, List.foldl_nil, if_neg (by omega)]
  | succ n ih =>
    intro s a ha j hj
    rw [List.range'_succ, List.foldl_cons]
    rw [ih (s + 1) (writeAt a s 0) (by rw [writeAt_length]; exact ha) j hj]
    by_cases hjs : j = s
    · subst hjs
      rw [if_neg (by omega), writeAt_getElem_eq _ _ _ (by omega)]
      rw [if_pos (by omega)]
    · rw [writeAt_getElem_ne _ _ _ _ hjs]
      have hc : (s + 1 ≤ j ∧ j < s + 1 + n) ↔ (s ≤ j ∧ j < s + (n + 1)) := by omega
      simp only [hc]

theorem sendFrame_length (cmd : ℕ) (msg : List ℕ) :
    (sendFrame cmd msg).length = 8 := by
  unfold sendFrame
  rw [foldl_writeAt_length, foldl_writeAt_length, writeAt_length]
  simp

theorem sendFrame_getElem (cmd : ℕ) (msg : List ℕ) (j : ℕ) (hj : j < 8) :
    (sendFrame cmd msg)[j]? =
      if j = 0 then some (cmd % 256)
      else if j ≤ msg.length then some (jsToUint8 msg[j - 1]?)
      else some 0 := by
  unfold sendFrame
  have h1 : (writeAt (List.replicate 8 0) 0 (cmd % 256)).length = 8 := by
    rw [writeAt_length]; simp
  have h2 : ((List.range (msg.length + 1)).foldl
      (fun a i => writeAt a (i + 1) (jsToUint8 msg[i]?))
      (writeAt (List.replicate 8 0) 0 (cmd % 256))).length = 8 := by
    rw [foldl_writeAt_length]; exact h1
  rw [foldl_zerowrite_getElem _ _ _ h2 j hj,
    foldl_msgwrite_getElem _ _ _ h1 j hj]
  by_cases hj0 : j = 0
  · subst hj0
    rw [if_neg (by omega), if_neg (by omega), if_pos rfl]
    exact writeAt_getElem_eq _ _ _ (by simp)
  · rw [if_neg hj0]
    by_cases hjm : j ≤ msg.length
    · rw [if_neg (by omega), if_pos (by omega), if_pos hjm]
    · rw [if_neg hjm, if_pos (by omega)]

/-- A JavaScript number in the sensor conversions: an exact rational, or
the NaN produced by arithmetic on an `undefined` array read. -/
inductive JSNum where
  | nan : JSNum
  | num : ℚ → JSNum
deriving DecidableEq

def JSNum.sub : JSNum → JSNum → JSNum
  | num a, num b => num (a - b)
  | _, _ => nan

def JSNum.div : JSNum → JSNum → JSNum
  | num a, num b => num (a / b)
  | _, _ => nan

def JSNum.add : JSNum → JSNum → JSNum
  | num a, num b => num (a + b)
  | _, _ => nan

/-- The element read `data[i]` of a response `Uint8Array` in a numeric
expression: a present byte, or NaN for an out-of-range (`undefined`)
read. -/
def jsElem (data : List ℕ) (i : ℕ) : JSNum :=
  match data[i]? with
  | some b => .num b
  | none => .nan

/-- The conversion applied by `get_temperature` to a received frame:
`(data[0] - 127) / 2.4 + 25` (src/finch.js). The divisor is the nonzero
literal 2.4, so rational division coincides with JavaScript division
wherever the frame has a first byte. -/
def get_temperature_decode (data : List ℕ) : JSNum :=
  (((jsElem data 0).sub (.num 127)).div (.num 2.4)).add (.num 25)

/-- `convAccel` from `get_acceleration` (src/finch.js):

    function convAccel(a) {
      if (a > 31) a -= 64
      return a * 1.6 / 32.0
    }

applied to a raw byte read from the response frame. -/
def convAccel (a : ℕ) : ℚ :=
  (((if 31 < a then (a : ℤ) - 64 else (a : ℤ)) : ℤ) : ℚ) * 1.6 / 32.0

/-- JavaScript `ToUint8` of a finite number: truncate toward zero, then
take the nonnegative residue modulo 256. This is the coercion a
`Uint8Array` element store applies to the value being written. -/
def toUint8 (q : ℚ) : ℕ :=
  (((if 0 ≤ q then ⌊q⌋ else ⌈q⌉) : ℤ) % 256).toNat

/-- The object returned by `get_acceleration`. `data` is the
`Uint8Array` from `recv`, so `data.slice(0, 3).map(convAccel)` is again
a `Uint8Array`: the typed array's `map` stores every `convAccel` result
back through `ToUint8`, so `x`, `y`, `z` are bytes (or `none` when the
corresponding slot is missing, i.e. `undefined`), not the rational
gravity values `convAccel` computed. `tap` and `shake` live in the
returned plain object and stay booleans. -/
structure AccelReading where
  x : Option ℕ
  y : Option ℕ
  z : Option ℕ
  tap : Bool
  shake : Bool
deriving DecidableEq

/-- The decoding performed by `get_acceleration` on the received frame:

    const accel = data.slice(0, 3).map(convAccel);
    return { x: accel[0], y: accel[1], z: accel[2],
      tap: (data[4] & 0x20) !== 0, shake: (data[4] & 0x80) !== 0 };

`data` is a `Uint8Array`, so `slice` yields a `Uint8Array` and its `map`
builds a new `Uint8Array`, coercing each `convAccel` result via
`ToUint8` (`toUint8` here) as it is stored. `data.getD 4 0` models
`ToInt32(data[4])`, which is 0 when `data[4]` is `undefined`. -/
def get_acceleration_decode (data : List ℕ) : AccelReading :=
  { x := ((data.take 3).map (fun b => toUint8 (convAccel b)))[0]?
    y := ((data.take 3).map (fun b => toUint8 (convAccel b)))[1]?
    z := ((data.take 3).map (fun b => toUint8 (convAccel b)))[2]?
    tap := (data.getD 4 0 &&& 0x20) != 0
    shake := (data.getD 4 0 &&& 0x80) != 0 }

/-- The decoding performed by `get_obstacles` on the received frame:
`data.slice(0, 2).map(x => x === 1)` (src/finch.js). `data` is a
`Uint8Array`, so the `map` result is again a `Uint8Array`: the booleans
produced by `x === 1` are stored through `ToUint8`, `true` as the number
1 and `false` as the number 0 — the caller receives numbers, never
booleans. -/
def get_obstacles_decode (data : List ℕ) : List ℕ :=
  (data.take 2).map (fun x => if x == 1 then 1 else 0)

/-- The decoding performed by `get_light`:
`data.slice(0, 2)` (src/finch.js), raw intensities. -/
def get_light_decode (data : List ℕ) : List ℕ :=
  data.take 2

/-- The trace of `buzz(sec, freq)` (src/finch.js):

    await send('B', [((sec * 1000) & 0xFF00) >> 8, (sec * 1000) & 0x00FF,
      (freq & 0xFF00) >> 8], freq && 0xFF);
    await wait(sec);

`'B'.charCodeAt(0) = 66`. The call site passes a fourth argument
`freq && 0xFF` to the two-parameter `send`; JavaScript ignores it, so
only the three-element parameter list reaches the frame. `sec` and
`freq` are the caller's nonnegative integers. -/
def buzz_op (sec freq : ℕ) : List Event :=
  send_op 66 [((sec * 1000) &&& 0xFF00) >>> 8, (sec * 1000) &&& 0x00FF,
    (freq &&& 0xFF00) >>> 8] ++ [Event.waitSeconds sec]

/-- The host state `run` consults on entry: whether `window.device` is
set, and whether that device handle is currently open. -/
structure HostState where
  deviceExists : Bool
  deviceOpened : Bool
deriving DecidableEq

/-- The device-acquisition steps at the top of `run` (src/finch.js):

    if (!window.device) {
      const devices = await navigator.hid.requestDevice({ filters: [] });
      window.device = devices[0];
    }
    if (!device.opened) await device.open();

A freshly requested handle is not yet open, so `open()` runs in exactly
the states where the handle did not already exist open. -/
def run_entry_events (s : HostState) : List Event :=
  (if s.deviceExists then [] else [Event.requestDevice]) ++
  (if s.deviceExists && s.deviceOpened then [] else [Event.openDev])

/-- The full trace of the async body of `run(prog)` (src/finch.js):
acquisition, the `'z'` handshake (send then receive, `zresp` being the
frame the device answers), the user task, and — only when the task does
not throw — the `'R'` idle send and `device.close()`. The body has no
try/finally, so a thrown task error abandons the function right after
`prog()`; `progThrows` records that outcome and `progEvents` the I/O the
task performed before finishing or throwing.
`'z'.charCodeAt(0) = 122`, `'R'.charCodeAt(0) = 82`. -/
def run_trace (s : HostState) (zresp : List ℕ) (progEvents : List Event)
    (progThrows : Bool) : List Event :=
  run_entry_events s ++
  [Event.sendReport (sendFrame 122 []), Event.recvFrame zresp] ++
  progEvents ++
  (if progThrows then [] else [Event.sendReport (sendFrame 82 [0]), Event.closeDev])

/-- C2: for every command identifier and parameter list with at most 7
parameters, the encoded frame has length exactly 8, byte 0 is the
identifier's character code, bytes 1..len(params) hold the parameters in
order, and bytes len(params)+1 .. 7 are zero. -/
theorem c2_sendFrame_layout (cmd : ℕ) (msg : List ℕ) (hcmd : cmd < 256)
    (hlen : msg.length ≤ 7) (hmsg : ∀ p ∈ msg, p < 256) :
    (sendFrame cmd msg).length = 8 ∧
    (sendFrame cmd msg)[0]? = some cmd ∧
    (∀ j, 1 ≤ j → j ≤ msg.length → (sendFrame cmd msg)[j]? = msg[j - 1]?) ∧
    (∀ j, msg.length + 1 ≤ j → j < 8 → (sendFrame cmd msg)[j]? = some 0) := by
  refine ⟨sendFrame_length cmd msg, ?_, ?_, ?_⟩
  · rw [sendFrame_getElem cmd msg 0 (by omega), if_pos rfl, Nat.mod_eq_of_lt hcmd]
  · intro j h1 h2
    rw [sendFrame_getElem cmd msg j (by omega), if_neg (by omega), if_pos h2]
    cases h : msg[j - 1]? with
    | none => rw [List.getElem?_eq_none_iff] at h; omega
    | some p =>
      have hp : p < 256 := hmsg p (List.getElem?_mem h)
      simp [jsToUint8, Nat.mod_eq_of_lt hp]
  · intro j h1 h2
    rw [sendFrame_getElem cmd msg j h2, if_neg (by omega), if_neg (by omega)]

/-- Witness for C2 at the spec's own example `Encode('M', [0,255,0,128])`
(`'M'.charCodeAt(0) = 77`). -/
theorem c2_sendFrame_layout_witness :
    (sendFrame 77 [0, 255, 0, 128]).length = 8 ∧
    (sendFrame 77 [0, 255, 0, 128])[0]? = some 77 ∧
    (sendFrame 77 [0, 255, 0, 128])[4]? = [0, 255, 0, 128][3]? ∧
    (sendFrame 77 [0, 255, 0, 128])[5]? = some 0 := by
  obtain ⟨h1, h2, h3, h4⟩ := c2_sendFrame_layout 77 [0, 255, 0, 128]
    (by decide) (by decide) (by decide)
  exact ⟨h1, h2, h3 4 (by decide) (by decide), h4 5 (by decide) (by decide)⟩

/-- C3 counterexample: with 8 parameters the code does not reject and a
frame is sent: `send` builds the 8-byte array from the first 7 parameters
(the typed array drops the out-of-range write) and passes it to
`sendReport`. -/
theorem c3_counterexample :
    send_op 77 [1, 2, 3, 4, 5, 6, 7, 8] =
      [Event.sendReport [77, 1, 2, 3, 4, 5, 6, 7]] := by decide

/-- C3 amended: with more than 7 parameters no error is raised and I/O
still happens: exactly one frame is sent, 8 bytes long, byte 0 the
identifier, bytes 1..7 the first 7 parameters; the excess parameters are
silently dropped. -/
theorem c3_amended_silent_truncation (cmd : ℕ) (msg : List ℕ) (hcmd : cmd < 256)
    (hlen : 7 < msg.length) (hmsg : ∀ p ∈ msg, p < 256) :
    send_op cmd msg = [Event.sendReport (sendFrame cmd msg)] ∧
    (sendFrame cmd msg).length = 8 ∧
    (sendFrame cmd msg)[0]? = some cmd ∧
    (∀ j, 1 ≤ j → j < 8 → (sendFrame cmd msg)[j]? = msg[j - 1]?) := by
  refine ⟨rfl, sendFrame_length cmd msg, ?_, ?_⟩
  · rw [sendFrame_getElem cmd msg 0 (by omega), if_pos rfl, Nat.mod_eq_of_lt hcmd]
  · intro j h1 h2
    rw [sendFrame_getElem cmd msg j h2, if_neg (by omega), if_pos (by omega)]
    cases h : msg[j - 1]? with
    | none => rw [List.getElem?_eq_none_iff] at h; omega
    | some p =>
      have hp : p < 256 := hmsg p (List.getElem?_mem h)
      simp [jsToUint8, Nat.mod_eq_of_lt hp]

/-- Witness for the amended C3 at the 8-parameter input. -/
theorem c3_amended_silent_truncation_witness :
    send_op 77 [1, 2, 3, 4, 5, 6, 7, 8] =
      [Event.sendReport (sendFrame 77 [1, 2, 3, 4, 5, 6, 7, 8])] ∧
    (sendFrame 77 [1, 2, 3, 4, 5, 6, 7, 8]).length = 8 ∧
    (sendFrame 77 [1, 2, 3, 4, 5, 6, 7, 8])[7]? = [1, 2, 3, 4, 5, 6, 7, 8][6]? := by
  obtain ⟨h1, h2, _, h4⟩ := c3_amended_silent_truncation 77 [1, 2, 3, 4, 5, 6, 7, 8]
    (by decide) (by decide) (by decide)
  exact ⟨h1, h2, h4 7 (by decide) (by decide)⟩

theorem and_shiftRight8_lt (x : ℕ) : (x &&& 0xFF00) >>> 8 < 256 := by
  have h1 : x &&& 0xFF00 ≤ 0xFF00 := Nat.and_le_right
  have h2 : (x &&& 0xFF00) >>> 8 = (x &&& 0xFF00) / 2 ^ 8 :=
    Nat.shiftRight_eq_div_pow _ 8
  omega

theorem sendFrame_three (cmd a b c : ℕ) (hcmd : cmd < 256) (ha : a < 256)
    (hb : b < 256) (hc : c < 256) :
    sendFrame cmd [a, b, c] = [cmd, a, b, c, 0, 0, 0, 0] := by
  apply List.ext_getElem?
  intro n
  by_cases hn : n < 8
  · rw [sendFrame_getElem _ _ n hn]
    interval_cases n <;>
      simp [jsToUint8, Nat.mod_eq_of_lt, hcmd, ha, hb, hc]
  · rw [List.getElem?_eq_none (by rw [sendFrame_length]; omega),
      List.getElem?_eq_none (by simp; omega)]

/-- C4: the `'B'` frame of `buzz(sec, freq)` carries the duration
`sec * 1000` ms big-endian in parameter bytes 1 and 2, the frequency high
byte `(freq & 0xFF00) >> 8` in parameter byte 3, and the caller is
suspended for `sec` seconds after the send. -/
theorem c4_buzz_frame (sec freq : ℕ) :
    buzz_op sec freq =
      [Event.sendReport [66, ((sec * 1000) &&& 0xFF00) >>> 8,
        (sec * 1000) &&& 0x00FF, (freq &&& 0xFF00) >>> 8, 0, 0, 0, 0],
       Event.waitSeconds sec] := by
  have hb : (sec * 1000) &&& 0x00FF < 256 := by
    have := Nat.and_le_right (n := sec * 1000) (m := 0x00FF); omega
  rw [buzz_op, send_op,
    sendFrame_three 66 _ _ _ (by omega) (and_shiftRight8_lt _) hb
      (and_shiftRight8_lt _)]
  rfl

/-- C5: the low byte of `freq` never reaches the wire: the `'B'` frame
has exactly three parameter bytes (bytes 4..7 are zero) because the extra
`freq && 0xFF` argument is dropped, and for `freq < 256` the frequency
parameter byte is 0 — the trace is the same as with frequency 0. -/
theorem c5_buzz_freq_low_byte_never_sent (sec freq : ℕ) (hfreq : freq < 256) :
    (freq &&& 0xFF00) >>> 8 = 0 ∧
    buzz_op sec freq =
      [Event.sendReport [66, ((sec * 1000) &&& 0xFF00) >>> 8,
        (sec * 1000) &&& 0x00FF, 0, 0, 0, 0, 0],
       Event.waitSeconds sec] ∧
    buzz_op sec freq = buzz_op sec 0 := by
  have h0 : (freq &&& 0xFF00) >>> 8 = 0 := by
    have h1 : freq &&& 0xFF00 ≤ freq := Nat.and_le_left
    have h2 : (freq &&& 0xFF00) >>> 8 = (freq &&& 0xFF00) / 2 ^ 8 :=
      Nat.shiftRight_eq_div_pow _ 8
    omega
  refine ⟨h0, ?_, ?_⟩
  · rw [c4_buzz_frame, h0]
  · rw [c4_buzz_frame, c4_buzz_frame, h0,
      show (0 &&& 0xFF00) >>> 8 = 0 from by decide]

/-- Witness for C5 at `buzz(1, 255)`: the frequency byte sent is 0 and
the trace is indistinguishable from frequency 0. -/
theorem c5_buzz_freq_low_byte_never_sent_witness :
    (255 &&& 0xFF00) >>> 8 = 0 ∧ buzz_op 1 255 = buzz_op 1 0 :=
  ⟨(c5_buzz_freq_low_byte_never_sent 1 255 (by decide)).1,
   (c5_buzz_freq_low_byte_never_sent 1 255 (by decide)).2.2⟩

/-- C6 counterexample: on an empty response frame `get_temperature` does
not raise any error — there is no ProtocolError in the code — it returns
the NaN produced by arithmetic on the `undefined` read `data[0]`. -/
theorem c6_counterexample : get_temperature_decode [] = JSNum.nan := rfl

/-- C6 amended: a response shorter than the byte the temperature decoder
reads is not detected: no error is surfaced, the missing byte reads as
`undefined`, and the operation returns NaN instead of a temperature. -/
theorem c6_amended_short_frame_nan (data : List ℕ) (h : data.length = 0) :
    get_temperature_decode data = JSNum.nan := by
  rcases data with _ | ⟨b, t⟩
  · rfl
  · simp at h

/-- Witness for the amended C6 at the empty frame. -/
theorem c6_amended_short_frame_nan_witness :
    get_temperature_decode [] = JSNum.nan :=
  c6_amended_short_frame_nan [] rfl

/-- C7 (evaluation of the code at the failing input): `convAccel 40` is
indeed the claimed -1.2 G, and the tap/shake bits of byte 4 decode as
claimed — but the typed array's `map` stores the conversion results
through `ToUint8`, so on the frame `[40, 0, 0, 0, 0xA0, ...]` the
returned `x` is the byte 255 (ToUint8 of -1.2), not -1.2 G: the
"convert finch readings to Gs" the code's own comment promises is
destroyed before the value reaches the caller. -/
theorem c7_acceleration_gs_destroyed_by_uint8_store :
    convAccel 40 = -1.2 ∧
    (get_acceleration_decode [40, 0, 0, 0, 160, 0, 0, 0]).x = some 255 ∧
    (get_acceleration_decode [40, 0, 0, 0, 160, 0, 0, 0]).y = some 0 ∧
    (get_acceleration_decode [40, 0, 0, 0, 160, 0, 0, 0]).tap = true ∧
    (get_acceleration_decode [40, 0, 0, 0, 160, 0, 0, 0]).shake = true := by
  have h40 : convAccel 40 = -1.2 := by norm_num [convAccel]
  have hc : ⌈(-1.2 : ℚ)⌉ = -1 := by
    rw [Int.ceil_eq_iff]
    norm_num
  have hx : toUint8 (convAccel 40) = 255 := by
    rw [h40, toUint8, if_neg (by norm_num), hc]
    decide
  have hy : toUint8 (convAccel 0) = 0 := by
    have h0 : convAccel 0 = 0 := by norm_num [convAccel]
    rw [h0]
    norm_num [toUint8]
  refine ⟨h40, ?_, ?_, by decide, by decide⟩
  · show some (toUint8 (convAccel 40)) = some 255
    rw [hx]
  · show some (toUint8 (convAccel 0)) = some 0
    rw [hy]

/-- C8: temperature decoding: the Celsius value is
`(data[0] - 127) / 2.4 + 25`; raw 127 gives exactly 25 and raw 0 gives
`25 - 127/2.4`. -/
theorem c8_temperature_decode (data : List ℕ) (h : 1 ≤ data.length) :
    get_temperature_decode data =
      JSNum.num ((((data.getD 0 0 : ℕ) : ℚ) - 127) / 2.4 + 25) ∧
    get_temperature_decode [127] = JSNum.num 25 ∧
    get_temperature_decode [0] = JSNum.num (25 - 127 / 2.4) := by
  refine ⟨?_,
    by norm_num [get_temperature_decode, jsElem, JSNum.sub, JSNum.div, JSNum.add],
    by norm_num [get_temperature_decode, jsElem, JSNum.sub, JSNum.div, JSNum.add]⟩
  rcases data with _ | ⟨b0, rest⟩
  · simp at h
  · simp [get_temperature_decode, jsElem, JSNum.sub, JSNum.div, JSNum.add]

/-- Witness for C8 at the single-byte frame `[127]`. -/
theorem c8_temperature_decode_witness :
    get_temperature_decode [127] =
      JSNum.num ((((127 : ℕ) : ℚ) - 127) / 2.4 + 25) :=
  (c8_temperature_decode [127] (by decide)).1

/-- C9 (evaluation of the code at the failing input): the `x === 1`
flags are stored back into a `Uint8Array` by the typed array's `map`, so
`get_obstacles` returns the numbers 1/0 — `Uint8Array [1, 0]` on the
frame `[1, 0, ...]` — never the boolean pair its own JSDoc
(`Promise<boolean[]>`, "either false ... or true") and the claim
describe. The presence information survives (1 iff the byte equals 1),
the boolean type does not. -/
theorem c9_obstacles_numbers_not_booleans :
    get_obstacles_decode [1, 0, 0, 0, 0, 0, 0, 0] = [1, 0] ∧
    get_obstacles_decode [0, 1, 0, 0, 0, 0, 0, 0] = [0, 1] ∧
    get_obstacles_decode [0, 2, 0, 0, 0, 0, 0, 0] = [0, 0] := by
  decide

/-- C10: on entry `run` requests a device handle exactly when none
exists, opens the transport exactly when the handle is not already open,
and performs no acquisition I/O at all when an open handle exists — the
open connection is reused. -/
theorem c10_run_entry_reuses_open_handle (s : HostState) :
    (Event.requestDevice ∈ run_entry_events s ↔ s.deviceExists = false) ∧
    (Event.openDev ∈ run_entry_events s ↔ (s.deviceExists && s.deviceOpened) = false) ∧
    (s.deviceExists = true → s.deviceOpened = true → run_entry_events s = []) := by
  rcases s with ⟨de, dop⟩
  cases de <;> cases dop <;> decide

/-- Witness for C10: with an existing open handle, entry performs no
request and no open. -/
theorem c10_run_entry_reuses_open_handle_witness :
    run_entry_events ⟨true, true⟩ = [] :=
  (c10_run_entry_reuses_open_handle ⟨true, true⟩).2.2 rfl rfl

/-- C1 (evaluation of the code at the failing input): when the task
completes normally, the session ends with exactly one idle `'R'` send
followed by one `close()`; but when the task throws, `run`'s body — which
has no try/finally — never reaches the teardown: no `'R'` frame is sent
and `close()` is never called, refuting the claimed all-outcomes
teardown invariant. -/
theorem c1_run_teardown_skipped_when_task_throws :
    run_trace ⟨true, true⟩ [7] [] false =
      [Event.sendReport (sendFrame 122 []), Event.recvFrame [7],
       Event.sendReport (sendFrame 82 [0]), Event.closeDev] ∧
    (run_trace ⟨true, true⟩ [7] [] false).count Event.closeDev = 1 ∧
    Event.closeDev ∉ run_trace ⟨true, true⟩ [7] [] true ∧
    Event.sendReport (sendFrame 82 [0]) ∉ run_trace ⟨true, true⟩ [7] [] true := by
  decide

end Finch
